import Mathlib

/-!
Verification of the interlaced fly-scan planning repository.

The development shallowly embeds the numeric core of the five Python
scripts:

* `interlaced_angles.py` — bit-reversal interlaced angle scheduling
  (`bit_reverse`, the `angles`/`loop_indices` loop);
* `detector_control.py` — `compute_frame_time` (readout lookup and frame
  time floor) and `rotary_stage_velocity` (encoder quantization);
* `blur_vs_tomoscan.py` / `blur_vs_exposure-readout_arcs.py` — the
  blur-limited maximum angular step `theta_exposure_time` and speeds.

Machine floats are modelled as exact rationals (`ℚ`) or reals (`ℝ`);
Python exceptions are modelled by explicit result constructors.
-/

/-! ## Bit reversal (`interlaced_angles.py`, `bit_reverse`)

The source formats `x` in binary, zero-padded to at least `bits` digits,
reverses the digit string and parses it back:

    def bit_reverse(x, bits):
        b = f'{x:0{bits}b}'
        return int(b[::-1], 2)

The format pads to `max bits (number of binary digits of x)` digits, so the
reversal acts on that many low-order bits. -/

/-- Fuel-driven floor of the base-2 logarithm; `log2Fuel fuel x` equals
`⌊log₂ x⌋` whenever `x ≤ fuel` and `1 ≤ x`.  Embeds Python's
`int(np.log2 k)` for positive integer `k`. -/
def log2Fuel : ℕ → ℕ → ℕ
  | 0, _ => 0
  | fuel + 1, x => if 2 ≤ x then log2Fuel fuel (x / 2) + 1 else 0

/-- `⌊log₂ x⌋` (0 for `x = 0`), the embedding of `int(np.log2(x))`. -/
def floorLog2 (x : ℕ) : ℕ := log2Fuel x x

/-- Number of digits of Python's `'{x:b}'` binary rendering: 1 for `x = 0`,
otherwise `⌊log₂ x⌋ + 1`. -/
def numBits (x : ℕ) : ℕ := if x = 0 then 1 else floorLog2 x + 1

/-- Reverse the `b` low-order bits of `x` (digit-string reversal of a
`b`-digit binary string). -/
def bitRevAux : ℕ → ℕ → ℕ
  | _, 0 => 0
  | x, b + 1 => x % 2 * 2 ^ b + bitRevAux (x / 2) b

/-- `bit_reverse(x, bits)` from `interlaced_angles.py`: the binary string of
`x`, zero-padded to at least `bits` digits, reversed and parsed back.  The
padding width is `max bits (numBits x)` because Python's `0{bits}b` format
pads to a minimum field width only. -/
def bit_reverse (x bits : ℕ) : ℕ := bitRevAux x (max bits (numBits x))

/-! ## Interlaced schedule (`interlaced_angles.py`, main loop)

    bits = int(np.log2(K))
    for n in range(N_theta):
        val = n * K + bit_reverse((n * K // N_theta) % K, bits)
        theta = val * 2 * np.pi / N_theta
        loop = (n * K // N_theta) % K
-/

/-- `loop = (n * K // N_theta) % K`: the interlace pass an acquisition
belongs to. -/
def loopId (N K n : ℕ) : ℕ := n * K / N % K

/-- `val = n * K + bit_reverse((n * K // N_theta) % K, bits)` with
`bits = int(np.log2(K))`. -/
def scheduleVal (N K n : ℕ) : ℕ := n * K + bit_reverse (loopId N K n) (floorLog2 K)

/-- `theta = val * 2 * np.pi / N_theta`: the scheduled angle in radians. -/
noncomputable def thetaRadians (N K n : ℕ) : ℝ :=
  (scheduleVal N K n : ℝ) * (2 * Real.pi) / N

/-- Result of running the interlaced scheduling loop.  The source performs
no validation of `(N, K)` and always returns the computed sequences; the
`degenerateScheduleError` constructor exists only to express the outcome
the specification demands and is never produced by the code. -/
inductive ScheduleResult where
  | schedule (vals loops : List ℕ)
  | degenerateScheduleError
  deriving DecidableEq

/-- The interlaced scheduling loop of `interlaced_angles.py`: for each
`n < N` it records `val` (from which `theta = val * 2π/N` is derived) and
the loop index.  No `(N, K)` validation is performed by the source. -/
def interlaced_schedule (N K : ℕ) : ScheduleResult :=
  .schedule ((List.range N).map (scheduleVal N K)) ((List.range N).map (loopId N K))

/-- The time-index-to-grid-slot map of the interlaced schedule, as a self
map of `Fin N`: `n ↦ (n*K + bit_reverse((n*K // N) % K, log2 K)) % N`. -/
def scheduleFin (N K : ℕ) : Fin N → Fin N :=
  fun n => ⟨scheduleVal N K n.val % N,
    Nat.mod_lt _ (Nat.lt_of_le_of_lt (Nat.zero_le _) n.isLt)⟩

/-! ## Python `round` (`detector_control.py`, `rotary_stage_velocity`)

Python's builtin `round` on a float uses round-half-to-even (banker's
rounding): ties go to the nearest even integer. -/

/-- Python's builtin `round` to an integer: nearest integer, ties to the
nearest even integer (round-half-to-even). -/
def pythonRound (q : ℚ) : ℤ :=
  if q - ⌊q⌋ < 1 / 2 then ⌊q⌋
  else if 1 / 2 < q - ⌊q⌋ then ⌊q⌋ + 1
  else if 2 ∣ ⌊q⌋ then ⌊q⌋ else ⌊q⌋ + 1

/-! ## Encoder quantization (`detector_control.py`, `rotary_stage_velocity`)

    encoder_multiply = float(PSOCountsPerRotation) / 360.
    raw_delta_encoder_counts = rotation_step * encoder_multiply
    delta_encoder_counts = round(raw_delta_encoder_counts)
    if abs(raw_delta_encoder_counts - delta_encoder_counts) > 1e-4:
        ... new_rotation_step = delta_encoder_counts / encoder_multiply ...
    ...
    motor_speed = np.abs(new_rotation_step) / time_per_angle_step

`new_rotation_step` is assigned only inside the `if` branch; when the
branch is skipped, `np.abs(new_rotation_step)` raises `UnboundLocalError`.
We model the quantized step as `Option ℚ`, `none` standing for that
unbound-variable failure. -/

/-- The quantization part of `rotary_stage_velocity`: `some` of the
adjusted step when `|raw - rounded| > 1e-4`, and `none` otherwise because
`new_rotation_step` is then never assigned (`UnboundLocalError` at the
`np.abs(new_rotation_step)` line). -/
def quantized_step (countsPerRotation rotationStep : ℚ) : Option ℚ :=
  let encoder_multiply := countsPerRotation / 360
  let raw_delta_encoder_counts := rotationStep * encoder_multiply
  let delta_encoder_counts := pythonRound raw_delta_encoder_counts
  if 1 / 10000 < |raw_delta_encoder_counts - (delta_encoder_counts : ℚ)| then
    some ((delta_encoder_counts : ℚ) / encoder_multiply)
  else
    none

/-- `rotary_stage_velocity`, with the encoder resolution (PV
`PSOCountsPerRotation`) and the frame time (`compute_frame_time()`, device
dependent) as parameters; `rotation_start` and `num_angles` feed only log
messages and are omitted.  `motor_speed = np.abs(new_rotation_step) /
time_per_angle_step`; `none` models the `UnboundLocalError` raised when
the quantization branch was skipped. -/
def rotary_stage_velocity (countsPerRotation rotationStep frameTime : ℚ) : Option ℚ :=
  (quantized_step countsPerRotation rotationStep).map (fun s => |s| / frameTime)

/-! ## Frame time (`detector_control.py`, `compute_frame_time`)

    readout_margin = 1.01
    if camera_model == 'Grasshopper3 GS3-U3-51S5M':
        readout_times = {'Mono8': 6.18, 'Mono12Packed': 8.20, 'Mono12p': 8.20, 'Mono16': 12.34}
        readout = readout_times[pixel_format]/1000.
    if camera_model == 'Oryx ORX-10G-51S5M':
        readout_margin = 1.05
        readout_times = {'Mono8': 6.18, 'Mono12Packed': 8.20, 'Mono16': 12.34}
        readout = readout_times[pixel_format]/1000.
    if camera_model == 'Oryx ORX-10G-310S9M':
        readout_times = {'Mono8': 30.0, 'Mono12Packed': 30.0, 'Mono16': 30.0}
        readout_margin = 1.2
        readout = readout_times[pixel_format]/1000.
    if readout is None:
        log.error(...)       # `log` is an undefined name: raises NameError
        return 0             # unreachable
    frame_time = exposure * readout_margin
    if frame_time < readout:
        frame_time = readout + .001
    return frame_time

A known camera model with an unknown pixel format raises `KeyError` at the
dictionary lookup; an unknown camera model reaches `log.error`, and since
the name `log` is not defined anywhere in the module this raises
`NameError`, so the `return 0` line below it is dead code. -/

/-- Readout times in milliseconds for `'Grasshopper3 GS3-U3-51S5M'`. -/
def grasshopperReadoutTimes (pixelFormat : String) : Option ℚ :=
  if pixelFormat = "Mono8" then some (618 / 100)
  else if pixelFormat = "Mono12Packed" then some (820 / 100)
  else if pixelFormat = "Mono12p" then some (820 / 100)
  else if pixelFormat = "Mono16" then some (1234 / 100)
  else none

/-- Readout times in milliseconds for `'Oryx ORX-10G-51S5M'`. -/
def oryx51ReadoutTimes (pixelFormat : String) : Option ℚ :=
  if pixelFormat = "Mono8" then some (618 / 100)
  else if pixelFormat = "Mono12Packed" then some (820 / 100)
  else if pixelFormat = "Mono16" then some (1234 / 100)
  else none

/-- Readout times in milliseconds for `'Oryx ORX-10G-310S9M'`. -/
def oryx310ReadoutTimes (pixelFormat : String) : Option ℚ :=
  if pixelFormat = "Mono8" then some (30 : ℚ)
  else if pixelFormat = "Mono12Packed" then some (30 : ℚ)
  else if pixelFormat = "Mono16" then some (30 : ℚ)
  else none

/-- The readout time (in milliseconds) the source's conditional chain knows
for a camera model / pixel format combination; `none` when no table entry
exists (either an unknown camera model, or a known model whose table lacks
the pixel format). -/
def knownReadout (cameraModel pixelFormat : String) : Option ℚ :=
  if cameraModel = "Grasshopper3 GS3-U3-51S5M" then grasshopperReadoutTimes pixelFormat
  else if cameraModel = "Oryx ORX-10G-51S5M" then oryx51ReadoutTimes pixelFormat
  else if cameraModel = "Oryx ORX-10G-310S9M" then oryx310ReadoutTimes pixelFormat
  else none

/-- The per-model readout margin: 1.05 for the Oryx 51S5M, 1.2 for the
Oryx 310S9M, and the initial 1.01 otherwise. -/
def readoutMarginOf (cameraModel : String) : ℚ :=
  if cameraModel = "Oryx ORX-10G-51S5M" then 105 / 100
  else if cameraModel = "Oryx ORX-10G-310S9M" then 120 / 100
  else 101 / 100

/-- The tail of `compute_frame_time` (its lines after the lookup):
`frame_time = exposure * readout_margin`, replaced by `readout + .001`
when it is below the readout time. -/
def frameTimeCore (exposure readout_margin readout : ℚ) : ℚ :=
  let frame_time := exposure * readout_margin
  if frame_time < readout then readout + 1 / 1000 else frame_time

/-- Result of `compute_frame_time`.  `keyError` models the Python
`KeyError` raised by `readout_times[pixel_format]` for a known camera with
an unknown pixel format; `nameError` models the `NameError` raised at
`log.error(...)` (the name `log` is undefined) for an unknown camera
model.  The `return 0` after the logging line is unreachable. -/
inductive FrameTimeResult where
  | frameTime (t : ℚ)
  | keyError
  | nameError
  deriving DecidableEq

/-- `compute_frame_time` of `detector_control.py`, with the camera model,
pixel format (PV readbacks) and exposure time (`Cam1AcquireTime_RBV`) as
parameters. -/
def compute_frame_time (cameraModel pixelFormat : String) (exposure : ℚ) : FrameTimeResult :=
  if cameraModel = "Grasshopper3 GS3-U3-51S5M" ∨ cameraModel = "Oryx ORX-10G-51S5M" ∨
      cameraModel = "Oryx ORX-10G-310S9M" then
    match knownReadout cameraModel pixelFormat with
    | some ms => .frameTime (frameTimeCore exposure (readoutMarginOf cameraModel) (ms / 1000))
    | none => .keyError
  else
    .nameError

/-! ## Blur-limited angular step (`blur_vs_tomoscan.py` and
`blur_vs_exposure-readout_arcs.py`)

    r = detector_x_size / 2
    theta_exposure_time = np.degrees(2*np.arcsin((set_blur/(2*r))))
    speeds = theta_exposure_time / exposure_times

`np.arcsin` returns NaN (with a runtime warning, not an exception) when
its argument lies outside `[-1, 1]`; neither script validates the argument
first, and no error type exists in either script. -/

/-- `np.degrees`: radians to degrees. -/
noncomputable def npDegrees (x : ℝ) : ℝ := x * 180 / Real.pi

/-- Result of the blur-to-angle computation.  `nan` models the NaN value
`np.arcsin` yields outside its domain; the `geometryDomainError`
constructor exists only to express the outcome the specification demands
and is never produced by the code, which contains no validation. -/
inductive BlurCalcResult where
  | ok (thetaDeg : ℝ)
  | nan
  | geometryDomainError

/-- `theta_exposure_time = np.degrees(2*np.arcsin(set_blur/(2*r)))` from
both blur scripts, with NaN propagation made explicit: NaN exactly when
`set_blur/(2*r)` lies outside `[-1, 1]`. -/
noncomputable def theta_exposure_time (set_blur r : ℝ) : BlurCalcResult :=
  if set_blur / (2 * r) < -1 ∨ 1 < set_blur / (2 * r) then .nan
  else .ok (npDegrees (2 * Real.arcsin (set_blur / (2 * r))))

/-- `speeds = theta_exposure_time / exposure_times` (one entry of the
vectorized division), written for arguments inside the arcsine domain:
the blur-limited maximum rotation speed in degrees per second. -/
noncomputable def maxSpeedDegPerS (set_blur r exposure_time : ℝ) : ℝ :=
  npDegrees (2 * Real.arcsin (set_blur / (2 * r))) / exposure_time

/-! ## Helper lemmas -/

theorem pythonRound_intCast (z : ℤ) : pythonRound (z : ℚ) = z := by
  unfold pythonRound
  rw [Int.floor_intCast]
  norm_num

theorem pythonRound_zero : pythonRound (0 : ℚ) = 0 := by
  simpa using pythonRound_intCast 0

theorem log2Fuel_two_pow (b : ℕ) : ∀ fuel, 2 ^ b ≤ fuel → log2Fuel fuel (2 ^ b) = b := by
  induction b with
  | zero =>
    intro fuel h
    cases fuel with
    | zero => norm_num at h
    | succ f => simp [log2Fuel]
  | succ b ih =>
    intro fuel h
    have hpos : 0 < 2 ^ b := Nat.pos_pow_of_pos b (by norm_num)
    have hmul : 2 ^ (b + 1) = 2 * 2 ^ b := by rw [pow_succ]; ring
    cases fuel with
    | zero => rw [hmul] at h; omega
    | succ f =>
      rw [hmul] at h ⊢
      simp only [log2Fuel]
      rw [if_pos (by omega), Nat.mul_div_cancel_left _ (by norm_num : 0 < 2),
        ih f (by omega)]

theorem floorLog2_two_pow (b : ℕ) : floorLog2 (2 ^ b) = b :=
  log2Fuel_two_pow b (2 ^ b) le_rfl

theorem log2Fuel_le (fuel : ℕ) : ∀ x b, 0 < x → x < 2 ^ (b + 1) → log2Fuel fuel x ≤ b := by
  induction fuel with
  | zero => intro x b _ _; simp [log2Fuel]
  | succ fuel ih =>
    intro x b hx hxb
    simp only [log2Fuel]
    split
    · rename_i h2
      cases b with
      | zero => rw [pow_one] at hxb; omega
      | succ b' =>
        have hx2 : 0 < x / 2 := Nat.div_pos h2 (by norm_num)
        have hx2b : x / 2 < 2 ^ (b' + 1) := by
          rw [pow_succ] at hxb
          omega
        have := ih (x / 2) b' hx2 hx2b
        omega
    · omega

theorem numBits_le (x b : ℕ) (hb : 0 < b) (hx : x < 2 ^ b) : numBits x ≤ b := by
  unfold numBits
  split
  · omega
  · rename_i hx0
    have h1 : 0 < x := Nat.pos_of_ne_zero hx0
    have hb' : b - 1 + 1 = b := by omega
    have h2 := log2Fuel_le x x (b - 1) h1 (by rw [hb']; exact hx)
    unfold floorLog2
    omega

theorem bit_reverse_of_lt (x b : ℕ) (hx : x < 2 ^ b) : bit_reverse x b = bitRevAux x b := by
  cases b with
  | zero =>
    rw [pow_zero] at hx
    have hx0 : x = 0 := by omega
    subst hx0
    rfl
  | succ b' =>
    have h := numBits_le x (b' + 1) (Nat.succ_pos _) hx
    unfold bit_reverse
    rw [Nat.max_eq_left h]

theorem bitRevAux_lt (b : ℕ) : ∀ x, bitRevAux x b < 2 ^ b := by
  induction b with
  | zero => intro x; simp [bitRevAux]
  | succ b ih =>
    intro x
    have h1 : x % 2 ≤ 1 := Nat.le_of_lt_succ (Nat.mod_lt x (by norm_num))
    have h2 := ih (x / 2)
    have hmul : 2 ^ (b + 1) = 2 * 2 ^ b := by rw [pow_succ]; ring
    have h3 : x % 2 * 2 ^ b ≤ 2 ^ b := by
      calc x % 2 * 2 ^ b ≤ 1 * 2 ^ b := Nat.mul_le_mul_right _ h1
      _ = 2 ^ b := one_mul _
    simp only [bitRevAux]
    omega

theorem bitRevAux_inj (b : ℕ) :
    ∀ x y, x < 2 ^ b → y < 2 ^ b → bitRevAux x b = bitRevAux y b → x = y := by
  induction b with
  | zero =>
    intro x y hx hy _
    rw [pow_zero] at hx hy
    omega
  | succ b ih =>
    intro x y hx hy h
    simp only [bitRevAux] at h
    rw [pow_succ] at hx hy
    have hx2 : x / 2 < 2 ^ b := by omega
    have hy2 : y / 2 < 2 ^ b := by omega
    have hA := bitRevAux_lt b (x / 2)
    have hB := bitRevAux_lt b (y / 2)
    rcases Nat.mod_two_eq_zero_or_one x with hxm | hxm <;>
      rcases Nat.mod_two_eq_zero_or_one y with hym | hym <;>
        rw [hxm, hym] at h <;>
        simp only [zero_mul, one_mul, zero_add] at h
    · have := ih (x / 2) (y / 2) hx2 hy2 h
      omega
    · omega
    · omega
    · have := ih (x / 2) (y / 2) hx2 hy2
        (by omega)
      omega

/-- The scheduled grid slot of time index `n`: with `N = M * K` and
`K = 2 ^ b`, writing `n = M * q + r`, the slot is `r * K + bitRevAux q b`. -/
theorem scheduleVal_mod (b M K N n : ℕ) (hK : K = 2 ^ b) (hN : N = M * K)
    (hM : 0 < M) (hn : n < N) :
    scheduleVal N K n % N = n % M * K + bitRevAux (n / M) b := by
  have hKpos : 0 < K := by rw [hK]; exact Nat.pos_pow_of_pos b (by norm_num)
  have hNpos : 0 < N := by rw [hN]; exact Nat.mul_pos hM hKpos
  have hq : n / M < K := Nat.div_lt_of_lt_mul (by rw [← hN]; exact hn)
  have hr : n % M < M := Nat.mod_lt n hM
  have hnval : n = M * (n / M) + n % M := (Nat.div_add_mod n M).symm
  have h1 : n * K = n % M * K + n / M * N := by
    conv_lhs => rw [hnval]
    rw [hN]
    ring
  have h2 : n % M * K < N := by
    rw [hN]
    exact mul_lt_mul_of_pos_right hr hKpos
  have hloop : loopId N K n = n / M := by
    unfold loopId
    rw [h1, Nat.add_mul_div_right _ _ hNpos, Nat.div_eq_of_lt h2, Nat.zero_add,
      Nat.mod_eq_of_lt hq]
  have hbits : floorLog2 K = b := by rw [hK]; exact floorLog2_two_pow b
  have hA : bitRevAux (n / M) b < K := by
    rw [hK]
    exact bitRevAux_lt b _
  have hsum : n % M * K + bitRevAux (n / M) b < N := by
    have h3 : n % M * K + K ≤ N := by
      rw [hN]
      calc n % M * K + K = (n % M + 1) * K := by ring
      _ ≤ M * K := Nat.mul_le_mul_right _ (Nat.succ_le_of_lt hr)
    omega
  calc scheduleVal N K n % N
      = (n % M * K + bitRevAux (n / M) b + n / M * N) % N := by
        unfold scheduleVal
        rw [hloop, hbits, bit_reverse_of_lt _ _ (by rw [← hK]; exact hq), h1]
        ring_nf
    _ = (n % M * K + bitRevAux (n / M) b) % N := Nat.add_mul_mod_self_right _ _ _
    _ = n % M * K + bitRevAux (n / M) b := Nat.mod_eq_of_lt hsum


/-! ## Claim theorems -/

/-- C10: for every `N` and `K` with `K` a power of two dividing `N`, the
map `n ↦ (n*K + bit_reverse((n*K div N) mod K, log2 K)) mod N` is a
bijection on `{0, ..., N-1}`: the interlaced schedule visits each of the
`N` uniformly spaced grid angles (taken modulo 360°) exactly once. -/
theorem c10_schedule_bijective (N K b : ℕ) (hK : K = 2 ^ b) (hdvd : K ∣ N) :
    Function.Bijective (scheduleFin N K) := by
  rw [← Finite.injective_iff_bijective]
  intro n₁ n₂ hf
  have hN : 0 < N := Nat.lt_of_le_of_lt (Nat.zero_le _) n₁.isLt
  obtain ⟨M, hNM⟩ := hdvd
  have hM : 0 < M := by
    rcases Nat.eq_zero_or_pos M with h | h
    · subst h
      rw [Nat.mul_zero] at hNM
      omega
    · exact h
  have hNM' : N = M * K := by rw [hNM]; ring
  have h1 := scheduleVal_mod b M K N n₁.val hK hNM' hM n₁.isLt
  have h2 := scheduleVal_mod b M K N n₂.val hK hNM' hM n₂.isLt
  have hv : scheduleVal N K n₁.val % N = scheduleVal N K n₂.val % N :=
    congrArg Fin.val hf
  rw [h1, h2] at hv
  have hKval : (0 : ℕ) < K := by rw [hK]; exact Nat.pos_pow_of_pos b (by norm_num)
  have hA₁ : bitRevAux (n₁.val / M) b < K := by rw [hK]; exact bitRevAux_lt b _
  have hA₂ : bitRevAux (n₂.val / M) b < K := by rw [hK]; exact bitRevAux_lt b _
  have e₁ : (n₁.val % M * K + bitRevAux (n₁.val / M) b) % K
      = bitRevAux (n₁.val / M) b := by
    rw [Nat.add_comm, Nat.add_mul_mod_self_right]
    exact Nat.mod_eq_of_lt hA₁
  have e₂ : (n₂.val % M * K + bitRevAux (n₂.val / M) b) % K
      = bitRevAux (n₂.val / M) b := by
    rw [Nat.add_comm, Nat.add_mul_mod_self_right]
    exact Nat.mod_eq_of_lt hA₂
  have hAeq : bitRevAux (n₁.val / M) b = bitRevAux (n₂.val / M) b := by
    rw [← e₁, hv, e₂]
  have hreq : n₁.val % M = n₂.val % M := by
    have : n₁.val % M * K = n₂.val % M * K := by omega
    exact Nat.eq_of_mul_eq_mul_right hKval this
  have hq₁ : n₁.val / M < 2 ^ b := by
    rw [← hK]
    exact Nat.div_lt_of_lt_mul (by rw [← hNM']; exact n₁.isLt)
  have hq₂ : n₂.val / M < 2 ^ b := by
    rw [← hK]
    exact Nat.div_lt_of_lt_mul (by rw [← hNM']; exact n₂.isLt)
  have hqeq : n₁.val / M = n₂.val / M := bitRevAux_inj b _ _ hq₁ hq₂ hAeq
  apply Fin.ext
  calc n₁.val = M * (n₁.val / M) + n₁.val % M := (Nat.div_add_mod _ _).symm
    _ = M * (n₂.val / M) + n₂.val % M := by rw [hqeq, hreq]
    _ = n₂.val := Nat.div_add_mod _ _

/-- C10 witness: the `N = 8, K = 2` instance of the bijection. -/
theorem c10_schedule_bijective_witness : Function.Bijective (scheduleFin 8 2) :=
  c10_schedule_bijective 8 2 1 (by norm_num) (by norm_num)

/-- C1: for every time-ordered index `n` (with `K` a power of two dividing
`N`), the scheduled angle `theta = val * 2π/N`, expressed in degrees,
equals `(val mod N) * (360/N)` up to a whole number of 360° turns, with
`val = n*K + bit_reverse((n*K div N) mod K, log2 K)`; and for `N = 8,
K = 2` the time-ordered angle sequence `(val mod N) * (360/N)` is
`[0, 90, 180, 270, 45, 135, 225, 315]` degrees while the `loop_id`
sequence is `[0, 0, 0, 0, 1, 1, 1, 1]`. -/
theorem c1_schedule_angles (N K n : ℕ) (hN : 0 < N) (_hn : n < N)
    (_hpow : ∃ b, K = 2 ^ b) (_hdvd : K ∣ N) :
    (∃ m : ℕ, npDegrees (thetaRadians N K n)
        = ((scheduleVal N K n % N : ℕ) : ℝ) * (360 / N) + 360 * m)
    ∧ (List.range 8).map (fun i => scheduleVal 8 2 i % 8 * 45)
        = [0, 90, 180, 270, 45, 135, 225, 315]
    ∧ (List.range 8).map (loopId 8 2) = [0, 0, 0, 0, 1, 1, 1, 1] := by
  refine ⟨⟨scheduleVal N K n / N, ?_⟩, by decide, by decide⟩
  have hmod : (scheduleVal N K n % N) + N * (scheduleVal N K n / N)
      = scheduleVal N K n := Nat.mod_add_div _ _
  have hcast : ((scheduleVal N K n % N : ℕ) : ℝ)
      + (N : ℝ) * ((scheduleVal N K n / N : ℕ) : ℝ) = (scheduleVal N K n : ℝ) := by
    exact_mod_cast congrArg (Nat.cast : ℕ → ℝ) hmod
  have hNne : (N : ℝ) ≠ 0 := Nat.cast_ne_zero.mpr hN.ne'
  have hpi : Real.pi ≠ 0 := Real.pi_ne_zero
  unfold npDegrees thetaRadians
  rw [← hcast]
  field_simp
  ring

/-- C1 witness: the theorem instantiated at `N = 8`, `K = 2`, `n = 3`. -/
theorem c1_schedule_angles_witness :
    (∃ m : ℕ, npDegrees (thetaRadians 8 2 3)
        = ((scheduleVal 8 2 3 % 8 : ℕ) : ℝ) * (360 / 8) + 360 * m)
    ∧ (List.range 8).map (fun i => scheduleVal 8 2 i % 8 * 45)
        = [0, 90, 180, 270, 45, 135, 225, 315]
    ∧ (List.range 8).map (loopId 8 2) = [0, 0, 0, 0, 1, 1, 1, 1] :=
  c1_schedule_angles 8 2 3 (by decide) (by decide) ⟨1, by decide⟩ (by decide)

/-- C2 (code bug): on the failing input `counts_per_rotation = 360000`,
`rotation_step = 0.12`, the requested step is exactly 120 encoder counts,
the adjustment branch is skipped, and `rotary_stage_velocity` crashes with
`UnboundLocalError` (modelled as `none`) instead of returning a velocity
computed from the unchanged requested step. -/
theorem c2_unbound_local_crash :
    rotary_stage_velocity 360000 (12 / 100) 1 = none
    ∧ quantized_step 360000 (12 / 100) = none := by
  norm_num [rotary_stage_velocity, quantized_step, pythonRound]

/-- C4 counterexample: with `exposure_time = 1/16`, `margin_factor = 1`
and `readout_time = 1/16` (all satisfying the claim's hypotheses), the
candidate equals the readout time exactly, the frame time returned is
`1/16`, and it is not strictly greater than the readout time. -/
theorem c4_counterexample :
    ((0 : ℚ) ≤ 1 / 16 ∧ (0 : ℚ) < 1 / 16 ∧ (1 : ℚ) ≤ 1)
    ∧ frameTimeCore (1 / 16) 1 (1 / 16) = 1 / 16
    ∧ ¬ ((1 : ℚ) / 16 < frameTimeCore (1 / 16) 1 (1 / 16)) := by
  norm_num [frameTimeCore]

/-- C4 amended: the frame time equals `exposure_time * margin_factor` when
that candidate is at least the readout time, and `readout_time + 1 ms`
otherwise, hence it is always greater than **or equal to** the readout
time (equality occurs exactly when the candidate equals the readout time);
in particular `exposure_time = 0`, `readout_time = 0.0625` gives
`0.0635`. -/
theorem c4_frame_time (exposure readout_margin readout : ℚ)
    (_hexp : 0 ≤ exposure) (_hro : 0 < readout) (_hm : 1 ≤ readout_margin) :
    (readout ≤ exposure * readout_margin →
      frameTimeCore exposure readout_margin readout = exposure * readout_margin)
    ∧ (exposure * readout_margin < readout →
      frameTimeCore exposure readout_margin readout = readout + 1 / 1000)
    ∧ readout ≤ frameTimeCore exposure readout_margin readout
    ∧ frameTimeCore 0 readout_margin (1 / 16) = 127 / 2000 := by
  refine ⟨?_, ?_, ?_, by norm_num [frameTimeCore]⟩
  · intro h
    simp only [frameTimeCore]
    rw [if_neg (not_lt.mpr h)]
  · intro h
    simp only [frameTimeCore]
    rw [if_pos h]
  · by_cases h : exposure * readout_margin < readout
    · simp only [frameTimeCore]
      rw [if_pos h]
      linarith
    · simp only [frameTimeCore]
      rw [if_neg h]
      exact not_lt.mp h

/-- C4 witness: the amended theorem instantiated at `exposure = 0`,
`margin = 1.01`, `readout = 1/16`. -/
theorem c4_frame_time_witness :
    ((1 : ℚ) / 16 ≤ 0 * (101 / 100) →
      frameTimeCore 0 (101 / 100) (1 / 16) = 0 * (101 / 100))
    ∧ ((0 : ℚ) * (101 / 100) < 1 / 16 →
      frameTimeCore 0 (101 / 100) (1 / 16) = 1 / 16 + 1 / 1000)
    ∧ (1 : ℚ) / 16 ≤ frameTimeCore 0 (101 / 100) (1 / 16)
    ∧ frameTimeCore 0 (101 / 100) (1 / 16) = 127 / 2000 :=
  c4_frame_time 0 (101 / 100) (1 / 16) (by norm_num) (by norm_num) (by norm_num)

/-- C5 counterexample: for `N = 10`, `K = 3` the scheduler returns a
schedule; it does not raise a `DegenerateScheduleError`. -/
theorem c5_counterexample :
    interlaced_schedule 10 3 ≠ ScheduleResult.degenerateScheduleError := by
  decide

/-- C5 amended: the scheduling loop performs no `(N, K)` validation: for
`N = 10`, `K = 3` it returns the (degenerate) schedule with `val` sequence
`[0, 3, 6, 9, 13, 16, 19, 22, 25, 28]` and `loop_id` sequence
`[0, 0, 0, 0, 1, 1, 1, 2, 2, 2]` instead of raising an error. -/
theorem c5_no_validation :
    interlaced_schedule 10 3
      = ScheduleResult.schedule [0, 3, 6, 9, 13, 16, 19, 22, 25, 28]
        [0, 0, 0, 0, 1, 1, 1, 2, 2, 2] := by
  decide

/-- C7 counterexample: `raw_counts = 0 + 0.5` (realizable exactly, e.g.
`requested_step = 0.5` at `counts_per_degree = 1`) rounds to `0`, not to
`0 + 1` as round-half-away-from-zero would give. -/
theorem c7_counterexample : ¬ (pythonRound ((0 : ℚ) + 1 / 2) = 0 + 1) := by
  norm_num [pythonRound]

/-- C7 amended: Python's `round` resolves exact half-integer ties to the
nearest even integer (round-half-to-even), not away from zero: for every
integer `k`, `round(k + 0.5)` is `k` when `k` is even and `k + 1` when `k`
is odd. -/
theorem c7_round_half_even (k : ℤ) :
    pythonRound ((k : ℚ) + 1 / 2) = if k % 2 = 0 then k else k + 1 := by
  have hfloor : ⌊(k : ℚ) + 1 / 2⌋ = k := by
    rw [Int.floor_int_add]
    norm_num
  have hfrac : (k : ℚ) + 1 / 2 - (⌊(k : ℚ) + 1 / 2⌋ : ℚ) = 1 / 2 := by
    rw [hfloor]
    ring
  unfold pythonRound
  rw [hfrac, hfloor]
  rw [if_neg (by norm_num), if_neg (by norm_num)]
  by_cases h : k % 2 = 0
  · rw [if_pos (Int.dvd_iff_emod_eq_zero.mpr h), if_pos h]
  · rw [if_neg (fun hd => h (Int.dvd_iff_emod_eq_zero.mp hd)), if_neg h]

/-- C3 counterexample: at `max_blur_px = 2.1 * radius` (radius 1024, the
source's detector half-width) the computation returns the NaN produced by
`np.arcsin`; no `GeometryDomainError` — no validation of any kind —
precedes the arcsine in the source. -/
theorem c3_counterexample :
    theta_exposure_time (2.1 * 1024) 1024 = BlurCalcResult.nan
    ∧ BlurCalcResult.nan ≠ BlurCalcResult.geometryDomainError := by
  constructor
  · have hc : (2.1 * 1024 : ℝ) / (2 * 1024) < -1 ∨ 1 < (2.1 * 1024 : ℝ) / (2 * 1024) := by
      right
      norm_num
    unfold theta_exposure_time
    rw [if_pos hc]
  · intro h
    exact BlurCalcResult.noConfusion h

/-- C3 amended: for every `max_blur_px` and `radius` with
`max_blur_px/(2*radius) > 1`, the blur-to-angle computation produces a NaN
from the arcsine; the source contains no validation and raises no error. -/
theorem c3_nan_not_error (set_blur r : ℝ) (_hr : 0 < r)
    (h : 1 < set_blur / (2 * r)) :
    theta_exposure_time set_blur r = BlurCalcResult.nan := by
  unfold theta_exposure_time
  rw [if_pos (Or.inr h)]

/-- C3 witness: the amended theorem at `max_blur_px = 2.1 * 1024`,
`radius = 1024`. -/
theorem c3_nan_not_error_witness :
    theta_exposure_time (2.1 * 1024) 1024 = BlurCalcResult.nan :=
  c3_nan_not_error (2.1 * 1024) 1024 (by norm_num) (by norm_num)

/-- C6: the quantizer's step is an integer number of encoder counts within
the `1e-4` tolerance: whenever the quantizer produces an adjusted step
`q`, `q * counts_per_degree` is within `1e-4` (in fact exactly equal) of
its rounding, and whenever it leaves the step unchanged (`none`, the
requested step standing), `requested_step * counts_per_degree` is within
`1e-4` of its rounding. -/
theorem c6_quantization_roundtrip (countsPerRotation rotationStep : ℚ) :
    (∀ q, quantized_step countsPerRotation rotationStep = some q →
      |q * (countsPerRotation / 360)
        - (pythonRound (q * (countsPerRotation / 360)) : ℚ)| ≤ 1 / 10000)
    ∧ (quantized_step countsPerRotation rotationStep = none →
      |rotationStep * (countsPerRotation / 360)
        - (pythonRound (rotationStep * (countsPerRotation / 360)) : ℚ)| ≤ 1 / 10000) := by
  by_cases hif : 1 / 10000 < |rotationStep * (countsPerRotation / 360)
      - (pythonRound (rotationStep * (countsPerRotation / 360)) : ℚ)|
  · constructor
    · intro q hq
      have hem : countsPerRotation / 360 ≠ 0 := by
        intro h0
        rw [h0, mul_zero, pythonRound_zero] at hif
        norm_num at hif
      have hq' : (pythonRound (rotationStep * (countsPerRotation / 360)) : ℚ)
          / (countsPerRotation / 360) = q := by
        simp only [quantized_step, if_pos hif] at hq
        exact Option.some.inj hq
      rw [← hq', div_mul_cancel₀ _ hem, pythonRound_intCast]
      simp
    · intro hnone
      simp only [quantized_step, if_pos hif] at hnone
      exact Option.noConfusion hnone
  · constructor
    · intro q hq
      simp only [quantized_step, if_neg hif] at hq
      exact Option.noConfusion hq
    · intro _
      exact not_lt.mp hif

/-- C6 witness: at `counts_per_rotation = 360000` (1000 counts/degree) and
`requested_step = 0.1234567°` (123.4567 raw counts), the quantizer adjusts
the step to `0.123°`, which is an exact count. -/
theorem c6_quantization_roundtrip_witness :
    |(123 / 1000 : ℚ) * (360000 / 360)
      - (pythonRound ((123 / 1000 : ℚ) * (360000 / 360)) : ℚ)| ≤ 1 / 10000 :=
  (c6_quantization_roundtrip 360000 (1234567 / 10000000)).1 (123 / 1000)
    (by
      norm_num [quantized_step, pythonRound]
      intro h
      rw [abs_of_nonneg (by norm_num : (0 : ℚ) ≤ 4567 / 10000)] at h
      norm_num at h)

/-- C8: when the camera model / pixel format combination has no known
readout time, `compute_frame_time` surfaces an exception to the caller —
`KeyError` from the readout-table lookup for a known camera with an
unknown pixel format, `NameError` (the undefined name `log`) for an
unknown camera — and never returns a frame time; the `return 0` default
after the logging line is unreachable. -/
theorem c8_lookup_error_surfaced (cameraModel pixelFormat : String) (exposure : ℚ)
    (h : knownReadout cameraModel pixelFormat = none) :
    compute_frame_time cameraModel pixelFormat exposure = FrameTimeResult.keyError
    ∨ compute_frame_time cameraModel pixelFormat exposure = FrameTimeResult.nameError := by
  unfold compute_frame_time
  split
  · rw [h]
    left
    rfl
  · right
    rfl

/-- C8 witness: an unsupported camera model surfaces an error. -/
theorem c8_lookup_error_surfaced_witness :
    compute_frame_time "Blackfly S BFS-U3-123S6M" "Mono8" 1 = FrameTimeResult.keyError
    ∨ compute_frame_time "Blackfly S BFS-U3-123S6M" "Mono8" 1 = FrameTimeResult.nameError :=
  c8_lookup_error_surfaced "Blackfly S BFS-U3-123S6M" "Mono8" 1 rfl

/-- C9: for fixed `radius > 0` and `0 < max_blur_px < 2*radius`, the
blur-limited maximum speed `degrees(2*arcsin(max_blur_px/(2*radius)))
/ exposure_time` is strictly decreasing in the exposure time over
`exposure_time > 0`. -/
theorem c9_max_speed_strict_anti (set_blur r e₁ e₂ : ℝ) (hr : 0 < r)
    (hb : 0 < set_blur) (_hb2 : set_blur < 2 * r) (he₁ : 0 < e₁) (h12 : e₁ < e₂) :
    maxSpeedDegPerS set_blur r e₂ < maxSpeedDegPerS set_blur r e₁ := by
  have hx : 0 < set_blur / (2 * r) := div_pos hb (by linarith)
  have harc : 0 < Real.arcsin (set_blur / (2 * r)) := Real.arcsin_pos.mpr hx
  have hc : 0 < npDegrees (2 * Real.arcsin (set_blur / (2 * r))) := by
    unfold npDegrees
    have hnum : 0 < 2 * Real.arcsin (set_blur / (2 * r)) * 180 := by linarith
    exact div_pos hnum Real.pi_pos
  unfold maxSpeedDegPerS
  exact div_lt_div_of_pos_left hc he₁ h12

/-- C9 witness: with the source's constants (`set_blur = 3`, `r = 1024`),
doubling the exposure time from 1 s to 2 s strictly lowers the maximum
speed. -/
theorem c9_max_speed_strict_anti_witness :
    maxSpeedDegPerS 3 1024 2 < maxSpeedDegPerS 3 1024 1 :=
  c9_max_speed_strict_anti 3 1024 1 2 (by norm_num) (by norm_num) (by norm_num)
    (by norm_num) (by norm_num)
